import Mathlib

/-
Verification of the conversation state manager and message-grouping logic of
the react-chat-app repository.

Shallow embedding notes:
- JavaScript objects used as string-keyed maps (`conversationsById`) are
  modelled as association lists with insertion-order semantics: updating an
  existing key replaces its value in place, a new key is appended (matching
  the object-spread idiom `\x7b...prev, [k]: v\x7d`).
- Values produced by the ambient runtime (`Date.now()`, `toISOString()`,
  `Math.random`) are passed in as explicit parameters.
- The `getDateString` and `formatDateDivider` helpers of MessageList.jsx
  depend on the JS `Date` runtime and the current wall-clock day, so the
  grouping pass is parameterised over them; their contracts (empty string for
  invalid input) are carried as hypotheses where needed.
- JSON.stringify followed by JSON.parse on the plain persisted payload is the
  identity on the structured data, modelled by `parseOfPersist`.
- JS truthiness of an optional string (null / undefined / "" are falsy) is
  `optTruthy`.
-/

namespace ChatApp

/-- Message object as produced by useChat/chatService: `timestamp` is optional
(legacy messages have none). -/
structure Message where
  id : String
  role : String
  content : String
  timestamp : Option String
  deriving Repr, DecidableEq

/-- Truthiness of an optional string in JavaScript: null/undefined and the
empty string are falsy. -/
def optTruthy : Option String → Bool
  | none => false
  | some s => s ≠ ""

/-- Render items produced by `groupMessagesByDate` in MessageList.jsx: either a
date divider or a message passthrough, each with its React key. -/
inductive RenderItem where
  | divider (dateString : String) (label : String) (key : String)
  | message (m : Message) (key : String)
  deriving Repr, DecidableEq

/-- Predicate picking out divider items. -/
def RenderItem.isDivider : RenderItem → Bool
  | .divider _ _ _ => true
  | .message _ _ => false

/-- One iteration of the `messages.forEach` loop in `groupMessagesByDate`
(MessageList.jsx). The accumulator carries the emitted items, the JS variable
`previousDateString` (`none` models null) and the running index. `gds` models
`getDateString` and `fdd` models `formatDateDivider` (both runtime-dependent,
hence parameters). -/
def groupStep (gds fdd : String → String)
    (acc : List RenderItem × Option String × Nat) (message : Message) :
    List RenderItem × Option String × Nat :=
  let items := acc.1
  let previousDateString := acc.2.1
  let index := acc.2.2
  let currentDateString : Option String :=
    match message.timestamp with
    | some t => if t ≠ "" then some (gds t) else none
    | none => none
  let emitDivider : Bool :=
    match currentDateString with
    | some s => s ≠ "" && decide (some s ≠ previousDateString)
    | none => false
  let items :=
    if emitDivider then
      let s := currentDateString.getD ""
      let dividerLabel := fdd s
      if dividerLabel ≠ "" then
        items ++ [RenderItem.divider s dividerLabel
          ("divider-" ++ s ++ "-" ++ toString index)]
      else items
    else items
  let items := items ++ [RenderItem.message message message.id]
  (items, currentDateString, index + 1)

/-- `groupMessagesByDate` from MessageList.jsx: walks the message list, emits a
divider whenever the current message has a truthy timestamp whose computed date
string is non-empty and differs (JS `!==`, where null differs from every
string) from `previousDateString`, then always emits the message, and
unconditionally sets `previousDateString` to the freshly computed value
(null for a message without a timestamp). -/
def groupMessagesByDate (gds fdd : String → String)
    (messages : List Message) : List RenderItem :=
  (messages.foldl (groupStep gds fdd) ([], none, 0)).1

/-- Modelled from the spec (for comparison with the code): the grouping pass as
section 4.2 of the spec describes it, where a message without a timestamp
leaves the previous bucket key unchanged instead of resetting it. -/
def groupMessagesByDateSpec (gds fdd : String → String) :
    Option String → Nat → List Message → List RenderItem
  | _, _, [] => []
  | prev, index, message :: rest =>
    let currentDateString : Option String :=
      match message.timestamp with
      | some t => if t ≠ "" then some (gds t) else none
      | none => none
    let front : List RenderItem :=
      match currentDateString with
      | some s =>
        if s ≠ "" && decide (some s ≠ prev) then
          let dividerLabel := fdd s
          if dividerLabel ≠ "" then
            [RenderItem.divider s dividerLabel
              ("divider-" ++ s ++ "-" ++ toString index)]
          else []
        else []
      | none => []
    let nextPrev : Option String :=
      match currentDateString with
      | some s => some s
      | none => prev
    front ++ RenderItem.message message message.id ::
      groupMessagesByDateSpec gds fdd nextPrev (index + 1) rest

/-- Recursive reference form of the code's grouping loop, used to state the
per-message divider rule directly: divider before a message iff its key is
non-empty, its label is non-empty, and the key differs from the immediately
preceding message's key (null when that message had no timestamp). -/
def groupRef (gds fdd : String → String) :
    Option String → Nat → List Message → List RenderItem
  | _, _, [] => []
  | prev, index, message :: rest =>
    let currentDateString : Option String :=
      match message.timestamp with
      | some t => if t ≠ "" then some (gds t) else none
      | none => none
    let front : List RenderItem :=
      match currentDateString with
      | some s =>
        if s ≠ "" && decide (some s ≠ prev) then
          let dividerLabel := fdd s
          if dividerLabel ≠ "" then
            [RenderItem.divider s dividerLabel
              ("divider-" ++ s ++ "-" ++ toString index)]
          else []
        else []
      | none => []
    front ++ RenderItem.message message message.id ::
      groupRef gds fdd currentDateString (index + 1) rest

/-- Conversation metadata record kept in the `conversations` list of useChat.js. -/
structure Conversation where
  id : String
  title : String
  deriving Repr, DecidableEq

/-- Lookup in the `conversationsById` object (`prev[id]`): `none` models the JS
`undefined` for an absent key. -/
def lookupById (m : List (String × List Message)) (k : String) :
    Option (List Message) :=
  (m.find? (fun p => p.1 = k)).map (fun p => p.2)

/-- Object-spread update `\x7b...prev, [k]: v\x7d` of `conversationsById`: an
existing key keeps its position and gets the new value, a new key is appended. -/
def setKey (m : List (String × List Message)) (k : String)
    (v : List Message) : List (String × List Message) :=
  if m.any (fun p => p.1 = k) then
    m.map (fun p => if p.1 = k then (k, v) else p)
  else m ++ [(k, v)]

/-- State owned by the useChat hook: the conversation metadata list, the
message map, and the loading / error / hydrated flags. Errors are modelled as
strings. -/
structure ChatState where
  conversations : List Conversation
  conversationsById : List (String × List Message)
  isLoading : Bool
  error : Option String
  isHydrated : Bool
  deriving Repr, DecidableEq

/-- Seed state of useChat.js: two pre-seeded, empty, ordinal-titled
conversations. -/
def seedState : ChatState :=
  { conversations :=
      [{ id := "c1", title := "First conversation" },
       { id := "c2", title := "Second conversation" }],
    conversationsById := [("c1", []), ("c2", [])],
    isLoading := false,
    error := none,
    isHydrated := false }

/-- Expected `STORAGE_VERSION` from useChat.js. -/
def STORAGE_VERSION : Int := 1

/-- `createConversation` from useChat.js. `now` models `Date.now()`; the fresh
id is the template string `c-` followed by it. Returns the chosen conversation
id together with the state after the call. -/
def createConversation (activeConversationId : Option String) (now : Nat)
    (s : ChatState) : String × ChatState :=
  let activeMessages : List Message :=
    match activeConversationId with
    | some aid =>
      if aid ≠ "" then (lookupById s.conversationsById aid).getD [] else []
    | none => []
  if optTruthy activeConversationId ∧ activeMessages.length = 0 then
    (activeConversationId.getD "", s)
  else
    match s.conversations.find? (fun conv =>
        ((lookupById s.conversationsById conv.id).getD []).length = 0) with
    | some existingEmptyConversation => (existingEmptyConversation.id, s)
    | none =>
      let newId := "c-" ++ toString now
      let newConversation : Conversation := { id := newId, title := "New conversation" }
      (newId,
        { s with
          conversations := s.conversations ++ [newConversation],
          conversationsById := setKey s.conversationsById newId [] })

/-- Fixed ordinal table of useChat.js. -/
def ordinals : List String :=
  ["First", "Second", "Third", "Fourth", "Fifth",
   "Sixth", "Seventh", "Eighth", "Ninth", "Tenth"]

/-- `ordinals[conversationCount] || ` followed by the `\x7bconversationCount + 1\x7dth`
fallback (every table entry is a non-empty, hence truthy, string). -/
def ordinalName (conversationCount : Nat) : String :=
  (ordinals.get? conversationCount).getD (toString (conversationCount + 1) ++ "th")

/-- Model of JavaScript `String.prototype.trim`: strips leading and trailing
whitespace characters. Implemented over the character list so that it is
kernel-computable. -/
def jsTrim (s : String) : String :=
  ⟨((s.data.dropWhile Char.isWhitespace).reverse.dropWhile
      Char.isWhitespace).reverse⟩

/-- `sendMessage` from useChat.js, with the ambient runtime made explicit:
`userMsgId` and `userTs` model the fresh id and ISO timestamp of the user
message, `replyResult` the settled outcome of `getAssistantReply` (the
assistant message on fulfilment, the rejection reason on rejection), and
`assistantTs` the timestamp stamped onto a successful reply. The guard
(`!userText || !userText.trim() || !activeConversationId`) makes the call a
no-op; otherwise the user message is appended, the title possibly rewritten,
and the awaited reply either appended or captured as the error, with
`isLoading` cleared in both outcomes. -/
def sendMessage (activeConversationId : Option String) (userText : String)
    (userMsgId userTs : String) (replyResult : Except String Message)
    (assistantTs : String) (s : ChatState) : ChatState :=
  if jsTrim userText = "" ∨ ¬ optTruthy activeConversationId then s
  else
    let aid := activeConversationId.getD ""
    let s := { s with error := none, isLoading := true }
    let userMessage : Message :=
      { id := userMsgId, role := "user", content := jsTrim userText,
        timestamp := some userTs }
    let previousMessagesForConversation :=
      (lookupById s.conversationsById aid).getD []
    let isFirstMessage := previousMessagesForConversation.length = 0
    let conversationCount : Nat :=
      if isFirstMessage then
        (s.conversations.filter (fun conv =>
          conv.id ≠ aid ∧
          (((lookupById s.conversationsById conv.id).getD []).length > 0 ∨
            conv.title ≠ "New conversation"))).length
      else 0
    let updatedMessagesForConversation :=
      previousMessagesForConversation ++ [userMessage]
    let s := { s with
      conversationsById :=
        setKey s.conversationsById aid updatedMessagesForConversation }
    let s :=
      if isFirstMessage then
        { s with conversations :=
            match s.conversations.find? (fun c => c.id = aid) with
            | none => s.conversations
            | some currentConversation =>
              if currentConversation.title ≠ "New conversation" then
                s.conversations
              else
                let newTitle := ordinalName conversationCount ++ " conversation"
                s.conversations.map (fun conv =>
                  if conv.id = aid then { conv with title := newTitle } else conv) }
      else s
    match replyResult with
    | .ok assistantMessage =>
      let assistantMessageWithTimestamp :=
        { assistantMessage with timestamp := some assistantTs }
      let existing := (lookupById s.conversationsById aid).getD []
      { s with
        conversationsById :=
          setKey s.conversationsById aid
            (existing ++ [assistantMessageWithTimestamp]),
        isLoading := false }
    | .error err => { s with error := some err, isLoading := false }

/-- `clearConversation` from useChat.js: no-op on a falsy id, otherwise the
spread update installs an empty sequence under that id. -/
def clearConversation (conversationId : Option String) (s : ChatState) :
    ChatState :=
  if optTruthy conversationId then
    { s with conversationsById :=
        setKey s.conversationsById (conversationId.getD "") [] }
  else s

/-- Shape of a successfully parsed stored snapshot: `version` plus the two
optional (possibly absent or falsy) collection fields. -/
structure StoredPayload where
  version : Int
  conversations : Option (List Conversation)
  conversationsById : Option (List (String × List Message))
  deriving Repr, DecidableEq

/-- Hydrate effect of useChat.js. The outer option models `localStorage.getItem`
returning a falsy value (nothing usable stored); the inner option models
`JSON.parse` (and the subsequent field accesses) throwing, which the
surrounding try/catch absorbs. Every branch falls through to
`setIsHydrated(true)`. -/
def hydrate (raw : Option (Option StoredPayload)) (s : ChatState) : ChatState :=
  let s' :=
    match raw with
    | none => s
    | some none => s
    | some (some parsed) =>
      if parsed.version = STORAGE_VERSION then
        match parsed.conversations, parsed.conversationsById with
        | some convs, some byId =>
          { s with conversations := convs, conversationsById := byId }
        | _, _ => s
      else s
  { s' with isHydrated := true }

/-- Payload written by the persist effect of useChat.js. -/
structure PersistPayload where
  version : Int
  conversations : List Conversation
  conversationsById : List (String × List Message)
  deriving Repr, DecidableEq

/-- Persist effect of useChat.js: skipped entirely before hydration completes;
once hydrated it serialises the current snapshot and attempts the store write,
whose failure is caught and ignored. Returns the (unchanged) state and the
payload handed to the store, if any. `write` models `localStorage.setItem`. -/
def persistStep (write : PersistPayload → Except String Unit)
    (s : ChatState) : ChatState × Option PersistPayload :=
  if s.isHydrated then
    let payload : PersistPayload :=
      { version := STORAGE_VERSION,
        conversations := s.conversations,
        conversationsById := s.conversationsById }
    match write payload with
    | .ok _ => (s, some payload)
    | .error _ => (s, some payload)
  else (s, none)

/-- JSON.stringify of the persisted payload followed by JSON.parse is the
identity on this plain data: the parsed snapshot has the same version and both
collection fields present verbatim. -/
def parseOfPersist (p : PersistPayload) : StoredPayload :=
  { version := p.version,
    conversations := some p.conversations,
    conversationsById := some p.conversationsById }

/-- Message passthrough projection of a render item. -/
def RenderItem.messageOf : RenderItem → Option Message
  | .message m _ => some m
  | .divider _ _ _ => none

/-- Concrete stand-in for `getDateString` on ISO timestamps: the date is the
first ten characters of the timestamp string. -/
def gdsTest : String → String := fun t => t.take 10

/-- Concrete stand-in for `formatDateDivider`: a non-empty label for every
bucket key. -/
def fddTest : String → String := fun s => "Label " ++ s

/-- Three messages on the same calendar day, the middle one without a
timestamp (legacy message). -/
def groupingTestMessages : List Message :=
  [{ id := "m1", role := "user", content := "a",
     timestamp := some "2025-01-18T10:00:00" },
   { id := "m2", role := "user", content := "b", timestamp := none },
   { id := "m3", role := "user", content := "c",
     timestamp := some "2025-01-18T11:00:00" }]

/-- The `forEach` loop of `groupMessagesByDate`, restated as structural
recursion: the accumulated item list is the prefix already emitted followed by
the recursively produced remainder. -/
theorem foldl_groupStep_eq (gds fdd : String → String) :
    ∀ (messages : List Message) (items : List RenderItem) (prev : Option String)
      (index : Nat),
      (messages.foldl (groupStep gds fdd) (items, prev, index)).1 =
        items ++ groupRef gds fdd prev index messages := by
  intro messages
  induction messages with
  | nil => intro items prev index; simp [groupRef]
  | cons message rest ih =>
    intro items prev index
    rw [List.foldl_cons, groupStep]
    cases h : message.timestamp with
    | none =>
      simp only [h]
      rw [ih]
      simp [groupRef, h]
    | some t =>
      simp only [h]
      by_cases ht : t = ""
      · subst ht
        simp only [ne_eq, not_true_eq_false, if_false, ite_false]
        rw [ih]
        simp [groupRef, h]
      · simp only [ne_eq, ht, not_false_eq_true, if_true, ite_true]
        by_cases hg : gds t = ""
        · rw [ih]; simp [groupRef, h, ht, hg]
        · by_cases hp : some (gds t) = prev
          · subst hp
            rw [ih]; simp [groupRef, h, ht, hg]
          · by_cases hl : fdd (gds t) = ""
            · rw [ih]; simp [groupRef, h, ht, hg, hp, hl]
            · rw [ih]; simp [groupRef, h, ht, hg, hp, hl]

/-- Every message of the input reappears, in order, among the message items of
the reference recursion. -/
theorem groupRef_messages (gds fdd : String → String) :
    ∀ (messages : List Message) (prev : Option String) (index : Nat),
      (groupRef gds fdd prev index messages).filterMap RenderItem.messageOf =
        messages := by
  intro messages
  induction messages with
  | nil => intro prev index; simp [groupRef]
  | cons message rest ih =>
    intro prev index
    rw [groupRef]
    cases h : message.timestamp with
    | none => simp [RenderItem.messageOf, ih]
    | some t =>
      by_cases ht : t = ""
      · subst ht
        simp [RenderItem.messageOf, ih]
      · simp only [ne_eq, ht, not_false_eq_true, if_true, ite_true]
        by_cases hg : gds t = ""
        · simp [RenderItem.messageOf, ih, hg]
        · by_cases hp : some (gds t) = prev
          · simp [RenderItem.messageOf, ih, hp]
          · by_cases hl : fdd (gds t) = ""
            · simp [List.filterMap_append, RenderItem.messageOf, ih, hg, hp, hl]
            · simp [List.filterMap_append, RenderItem.messageOf, ih, hg, hp, hl]

/-- C1 (counterexample): on a dated message, an undated message and a second
message dated the same calendar day, the code emits two dividers for that one
day — the undated message resets `previousDateString` to null instead of
leaving it unchanged — whereas the grouping pass described by the spec emits
exactly one. -/
theorem grouping_spec_mismatch :
    groupMessagesByDate gdsTest fddTest groupingTestMessages ≠
      groupMessagesByDateSpec gdsTest fddTest none 0 groupingTestMessages ∧
    ((groupMessagesByDate gdsTest fddTest groupingTestMessages).filter
      RenderItem.isDivider).length = 2 ∧
    ((groupMessagesByDateSpec gdsTest fddTest none 0 groupingTestMessages).filter
      RenderItem.isDivider).length = 1 := by
  refine ⟨?_, ?_, ?_⟩ <;> decide

/-- C1 (amended): the grouping pass emits every message item in input order,
and emits a divider immediately before exactly those messages whose computed
day-bucket key is non-empty, whose divider label is non-empty, and whose key
differs from the immediately preceding message's key — a message without a
timestamp carries a null key, so it never triggers a divider but resets the
previous bucket key to null (it is not left unchanged), and a dated message
directly after an undated one gets a divider even inside the same calendar
day. -/
theorem grouping_divider_rule (gds fdd : String → String)
    (messages : List Message) :
    groupMessagesByDate gds fdd messages = groupRef gds fdd none 0 messages ∧
    (groupMessagesByDate gds fdd messages).filterMap RenderItem.messageOf =
      messages := by
  constructor
  · rw [groupMessagesByDate, foldl_groupStep_eq]
    simp
  · rw [groupMessagesByDate, foldl_groupStep_eq]
    simp [groupRef_messages]

/-- Number of conversations in the metadata list whose message sequence is
empty (an absent map entry counts as empty, as in the code's `|| []`). -/
def emptyConversationCount (s : ChatState) : Nat :=
  (s.conversations.filter (fun conv =>
    ((lookupById s.conversationsById conv.id).getD []).length = 0)).length

/-- When some conversation in the metadata list has an empty message sequence,
`createConversation` returns without touching the state: either the active
conversation is empty (branch 1) or the `find` of branch 2 succeeds, and the
allocation branch is unreachable. -/
theorem createConversation_state_fixed (a : Option String) (now : Nat)
    (s : ChatState)
    (h : ∃ conv ∈ s.conversations,
        (lookupById s.conversationsById conv.id).getD [] = []) :
    (createConversation a now s).2 = s := by
  obtain ⟨conv, hmem, hempty⟩ := h
  have hfind : s.conversations.find? (fun c =>
      decide (((lookupById s.conversationsById c.id).getD []).length = 0)) ≠
        none := by
    rw [Ne, List.find?_eq_none]
    intro hall
    have hc := hall conv hmem
    simp [hempty] at hc
  rw [createConversation.eq_def]
  cases hf : s.conversations.find? (fun c =>
      decide (((lookupById s.conversationsById c.id).getD []).length = 0)) with
  | none => exact absurd hf hfind
  | some c =>
    cases a with
    | none =>
      simp only [hf]
      split <;> rfl
    | some aid =>
      simp only [hf]
      split <;> split <;> rfl

/-- C2 (amended): the seed state already contains two conversations with empty
message sequences, and every sequence of `createConversation` calls with no
intervening sends leaves the state — and hence that count of two — unchanged,
because the call reuses an existing empty conversation instead of allocating:
the number of empty conversations never grows, but it is two, not at most
one. -/
theorem createConversation_seed_fixed (calls : List (Option String × Nat)) :
    calls.foldl (fun s c => (createConversation c.1 c.2 s).2) seedState =
      seedState ∧
    emptyConversationCount
      (calls.foldl (fun s c => (createConversation c.1 c.2 s).2) seedState) =
      2 := by
  have hfix : calls.foldl (fun s c => (createConversation c.1 c.2 s).2)
      seedState = seedState := by
    induction calls with
    | nil => rfl
    | cons c cs ih =>
      rw [List.foldl_cons, createConversation_state_fixed]
      · exact ih
      · exact ⟨{ id := "c1", title := "First conversation" }, by decide, by decide⟩
  exact ⟨hfix, by rw [hfix]; decide⟩

/-- C2 (counterexample): already in the initial (seed) state — i.e. after the
empty sequence of `createConversation` calls — two conversations with empty
message sequences exist, so "at most one empty conversation at any time" fails
at time zero. -/
theorem seed_two_empty_conversations :
    emptyConversationCount seedState = 2 ∧
    ¬ emptyConversationCount seedState ≤ 1 := by decide

theorem lookupById_setKey (m : List (String × List Message)) (k : String)
    (v : List Message) (q : String) :
    lookupById (setKey m k v) q = if q = k then some v else lookupById m q := by
  rw [setKey]
  by_cases hany : m.any (fun p => p.1 = k) = true
  · rw [if_pos hany]
    by_cases hq : q = k
    · subst hq
      rw [if_pos rfl]
      rw [lookupById, List.find?_map]
      have hpred : (fun p : String × List Message => decide (p.1 = q)) ∘
          (fun p : String × List Message => if p.1 = q then (q, v) else p) =
          fun p : String × List Message => decide (p.1 = q) := by
        funext p
        by_cases h : p.1 = q <;> simp [h]
      rw [hpred]
      rcases hs : m.find? (fun p : String × List Message => decide (p.1 = q)) with _ | p₀
      · rw [List.find?_eq_none] at hs
        rw [List.any_eq_true] at hany
        obtain ⟨p, hp, hpk⟩ := hany
        exact absurd hpk (by simpa using hs p hp)
      · have hk := List.find?_some hs
        simp only [decide_eq_true_eq] at hk
        simp [hk]
    · rw [if_neg hq]
      have hkq : ¬ k = q := fun h => hq h.symm
      rw [lookupById, lookupById, List.find?_map]
      have hpred : (fun p : String × List Message => decide (p.1 = q)) ∘
          (fun p : String × List Message => if p.1 = k then (k, v) else p) =
          fun p : String × List Message => decide (p.1 = q) := by
        funext p
        by_cases h : p.1 = k
        · simp [h, hkq, hq]
        · simp [h]
      rw [hpred]
      rcases hs : m.find? (fun p : String × List Message => decide (p.1 = q)) with _ | p₀
      · rfl
      · have hk := List.find?_some hs
        simp only [decide_eq_true_eq] at hk
        simp [hk, hq]
  · rw [if_neg hany]
    rw [lookupById, lookupById, List.find?_append]
    by_cases hq : q = k
    · subst hq
      have hnone : m.find? (fun p : String × List Message => decide (p.1 = q)) =
          none := by
        rw [List.find?_eq_none]
        intro p hp
        simp only [decide_eq_true_eq]
        intro hpq
        exact hany (List.any_eq_true.mpr ⟨p, hp, by simp [hpq]⟩)
      simp [hnone]
    · have hkq : ¬ k = q := fun h => hq h.symm
      have h1 : List.find? (fun p : String × List Message => decide (p.1 = q))
          [(k, v)] = none := by
        simp [hkq]
      rw [h1, Option.or_none, if_neg hq]

theorem setKey_keys (m : List (String × List Message)) (k : String)
    (v : List Message) (p : String × List Message) (hp : p ∈ setKey m k v) :
    p.1 = k ∨ ∃ q ∈ m, q.1 = p.1 := by
  rw [setKey] at hp
  by_cases hany : m.any (fun r => r.1 = k) = true
  · rw [if_pos hany] at hp
    obtain ⟨q, hq, hfq⟩ := List.mem_map.mp hp
    by_cases h : q.1 = k
    · left; rw [← hfq]; simp [h]
    · right; exact ⟨q, hq, by rw [← hfq]; simp [h]⟩
  · rw [if_neg hany] at hp
    rcases List.mem_append.mp hp with h | h
    · right; exact ⟨p, h, rfl⟩
    · left
      have : p = (k, v) := by simpa using h
      rw [this]

def keysMatch (convs : List Conversation)
    (byId : List (String × List Message)) : Bool :=
  convs.all (fun c => (lookupById byId c.id).isSome) &&
  byId.all (fun p => convs.any (fun c => c.id = p.1))

def keySetsMatch (s : ChatState) : Bool :=
  keysMatch s.conversations s.conversationsById

theorem keysMatch_setKey (convs : List Conversation)
    (byId : List (String × List Message)) (k : String) (v : List Message)
    (h : keysMatch convs byId = true)
    (hk : convs.any (fun c => c.id = k) = true) :
    keysMatch convs (setKey byId k v) = true := by
  rw [keysMatch, Bool.and_eq_true, List.all_eq_true, List.all_eq_true] at h ⊢
  obtain ⟨hA, hB⟩ := h
  constructor
  · intro c hc
    have hc' := hA c hc
    simp only [lookupById_setKey]
    by_cases hck : c.id = k
    · simp [hck]
    · simpa [hck] using hc'
  · intro p hp
    rcases setKey_keys byId k v p hp with h1 | ⟨q, hq, hq1⟩
    · rw [h1]; simpa using hk
    · have hb := hB q hq
      rw [← hq1]; simpa using hb



theorem retitle_id (aid t : String) (conv : Conversation) :
    (if conv.id = aid then { conv with title := t } else conv).id = conv.id := by
  split <;> rfl

theorem any_retitle (convs : List Conversation) (aid t x : String) :
    ((convs.map (fun conv =>
        if conv.id = aid then { conv with title := t } else conv)).any
      (fun c => c.id = x)) = convs.any (fun c => c.id = x) := by
  rw [List.any_map]
  congr 1
  funext conv
  simp only [Function.comp_apply, retitle_id]

theorem keysMatch_retitle (convs : List Conversation)
    (byId : List (String × List Message)) (aid t : String)
    (h : keysMatch convs byId = true) :
    keysMatch (convs.map (fun conv =>
      if conv.id = aid then { conv with title := t } else conv)) byId = true := by
  rw [keysMatch, Bool.and_eq_true, List.all_eq_true, List.all_eq_true] at h ⊢
  obtain ⟨hA, hB⟩ := h
  constructor
  · intro c hc
    obtain ⟨q, hq, hfq⟩ := List.mem_map.mp hc
    have := hA q hq
    rw [← hfq, retitle_id]
    exact this
  · intro p hp
    have hb := hB p hp
    rw [any_retitle]
    exact hb

theorem keysMatch_append_conv (convs : List Conversation)
    (byId : List (String × List Message)) (k t : String) (v : List Message)
    (h : keysMatch convs byId = true) :
    keysMatch (convs ++ [{ id := k, title := t }]) (setKey byId k v) = true := by
  rw [keysMatch, Bool.and_eq_true, List.all_eq_true, List.all_eq_true] at h ⊢
  obtain ⟨hA, hB⟩ := h
  constructor
  · intro c hc
    simp only [lookupById_setKey]
    rcases List.mem_append.mp hc with hcm | hcm
    · have hc' := hA c hcm
      by_cases hck : c.id = k
      · simp [hck]
      · simpa [hck] using hc'
    · have : c = { id := k, title := t } := by simpa using hcm
      simp [this]
  · intro p hp
    rcases setKey_keys byId k v p hp with h1 | ⟨q, hq, hq1⟩
    · simp [List.any_append, h1]
    · have hb := hB q hq
      rw [← hq1]
      simp only [List.any_append]
      simpa using Or.inl (by simpa using hb)



theorem keySetsMatch_clear (cid : Option String) (s : ChatState)
    (h : keySetsMatch s = true)
    (hmem : ∀ i, cid = some i → i ≠ "" →
      s.conversations.any (fun c => c.id = i) = true) :
    keySetsMatch (clearConversation cid s) = true := by
  cases cid with
  | none => rw [clearConversation, if_neg (by simp [optTruthy])]; exact h
  | some i =>
    by_cases hi : i = ""
    · subst hi
      rw [clearConversation, if_neg (by simp [optTruthy])]
      exact h
    · rw [clearConversation, if_pos (by simp [optTruthy, hi])]
      rw [keySetsMatch]
      exact keysMatch_setKey _ _ _ _ h (hmem i rfl hi)

theorem keySetsMatch_create (a : Option String) (now : Nat) (s : ChatState)
    (h : keySetsMatch s = true) :
    keySetsMatch (createConversation a now s).2 = true := by
  rw [createConversation.eq_def]
  cases a with
  | none =>
    cases hf : s.conversations.find? (fun c =>
        decide (((lookupById s.conversationsById c.id).getD []).length = 0)) with
    | some c =>
      simp only [hf]
      split
      · exact h
      · exact h
    | none =>
      simp only [hf]
      split
      · exact h
      · rw [keySetsMatch]
        exact keysMatch_append_conv _ _ _ _ _ h
  | some aid =>
    cases hf : s.conversations.find? (fun c =>
        decide (((lookupById s.conversationsById c.id).getD []).length = 0)) with
    | some c =>
      simp only [hf]
      split
      · split
        · exact h
        · exact h
      · split
        · exact h
        · exact h
    | none =>
      simp only [hf]
      split
      · split
        · exact h
        · rw [keySetsMatch]
          exact keysMatch_append_conv _ _ _ _ _ h
      · split
        · exact h
        · rw [keySetsMatch]
          exact keysMatch_append_conv _ _ _ _ _ h

theorem keySetsMatch_hydrate (raw : Option (Option StoredPayload)) (s : ChatState)
    (h : keySetsMatch s = true)
    (hraw : ∀ convs byId, (∃ p, raw = some (some p) ∧
        p.version = STORAGE_VERSION ∧ p.conversations = some convs ∧
        p.conversationsById = some byId) → keysMatch convs byId = true) :
    keySetsMatch (hydrate raw s) = true := by
  rw [hydrate.eq_def]
  cases raw with
  | none => exact h
  | some inner =>
    cases inner with
    | none => exact h
    | some parsed =>
      dsimp only
      by_cases hv : parsed.version = STORAGE_VERSION
      · rw [if_pos hv]
        cases hc : parsed.conversations with
        | none => cases parsed.conversationsById <;> exact h
        | some convs =>
          cases hb : parsed.conversationsById with
          | none => exact h
          | some byId =>
            exact hraw convs byId ⟨parsed, rfl, hv, hc, hb⟩
      · rw [if_neg hv]
        exact h



theorem keySetsMatch_send (a : Option String) (txt uid uts : String)
    (r : Except String Message) (ats : String) (s : ChatState)
    (h : keySetsMatch s = true)
    (hmem : ∀ i, a = some i → i ≠ "" →
      s.conversations.any (fun c => c.id = i) = true) :
    keySetsMatch (sendMessage a txt uid uts r ats s) = true := by
  cases a with
  | none => rw [sendMessage, if_pos (by simp [optTruthy])]; exact h
  | some aid =>
    by_cases hi : aid = ""
    · subst hi
      rw [sendMessage, if_pos (by simp [optTruthy])]
      exact h
    · by_cases htxt : jsTrim txt = ""
      · rw [sendMessage, if_pos (Or.inl htxt)]; exact h
      · have haid := hmem aid rfl hi
        rw [sendMessage, if_neg (by simp [optTruthy, hi, htxt])]
        dsimp only
        simp only [Option.getD_some]
        have h1 : keysMatch s.conversations
            (setKey s.conversationsById aid
              ((lookupById s.conversationsById aid).getD [] ++
                [{ id := uid, role := "user", content := jsTrim txt,
                   timestamp := some uts }])) = true :=
          keysMatch_setKey _ _ _ _ h haid
        by_cases hfirst :
            ((lookupById s.conversationsById aid).getD []).length = 0
        · simp only [hfirst, eq_self_iff_true, if_true]
          cases hf : s.conversations.find? (fun c => decide (c.id = aid)) with
          | none =>
            simp only [hf]
            cases r with
            | ok am =>
              rw [keySetsMatch]
              exact keysMatch_setKey _ _ _ _ h1 haid
            | error e =>
              rw [keySetsMatch]
              exact h1
          | some cc =>
            simp only [hf]
            by_cases htitle : cc.title ≠ "New conversation"
            · simp only [if_pos htitle]
              cases r with
              | ok am =>
                rw [keySetsMatch]
                exact keysMatch_setKey _ _ _ _ h1 haid
              | error e =>
                rw [keySetsMatch]
                exact h1
            · simp only [if_neg htitle]
              have h2 := keysMatch_retitle _ _ aid
                (ordinalName (List.filter (fun conv =>
                  decide (conv.id ≠ aid ∧
                    (((lookupById s.conversationsById conv.id).getD []).length > 0 ∨
                      conv.title ≠ "New conversation"))) s.conversations).length ++
                  " conversation") h1
              have hany2 := any_retitle s.conversations aid
                (ordinalName (List.filter (fun conv =>
                  decide (conv.id ≠ aid ∧
                    (((lookupById s.conversationsById conv.id).getD []).length > 0 ∨
                      conv.title ≠ "New conversation"))) s.conversations).length ++
                  " conversation") aid
              cases r with
              | ok am =>
                rw [keySetsMatch]
                exact keysMatch_setKey _ _ _ _ h2 (by rw [hany2]; exact haid)
              | error e =>
                rw [keySetsMatch]
                exact h2
        · simp only [if_neg hfirst]
          cases r with
          | ok am =>
            rw [keySetsMatch]
            exact keysMatch_setKey _ _ _ _ h1 haid
          | error e =>
            rw [keySetsMatch]
            exact h1

/-- C3 (amended): hydrate (whenever the stored snapshot it installs itself has
matching key sets), createConversation and sendMessage (whenever the active id
names a conversation in the metadata list, or the call is a no-op) and
clearConversation (whenever the truthy id names a conversation in the metadata
list) all preserve the invariant that the conversation metadata list and the
message map have matching key sets; a truthy id absent from the metadata list
is not preserved by clearConversation, which then adds an unmatched map key. -/
theorem key_sets_match_preserved :
    (∀ raw s, keySetsMatch s = true →
      (∀ convs byId, (∃ p, raw = some (some p) ∧ p.version = STORAGE_VERSION ∧
        p.conversations = some convs ∧ p.conversationsById = some byId) →
        keysMatch convs byId = true) →
      keySetsMatch (hydrate raw s) = true) ∧
    (∀ a now s, keySetsMatch s = true →
      keySetsMatch (createConversation a now s).2 = true) ∧
    (∀ a txt uid uts r ats s, keySetsMatch s = true →
      (∀ i, a = some i → i ≠ "" →
        s.conversations.any (fun c => c.id = i) = true) →
      keySetsMatch (sendMessage a txt uid uts r ats s) = true) ∧
    (∀ cid s, keySetsMatch s = true →
      (∀ i, cid = some i → i ≠ "" →
        s.conversations.any (fun c => c.id = i) = true) →
      keySetsMatch (clearConversation cid s) = true) :=
  ⟨fun raw s h hraw => keySetsMatch_hydrate raw s h hraw,
   fun a now s h => keySetsMatch_create a now s h,
   fun a txt uid uts r ats s h hmem => keySetsMatch_send a txt uid uts r ats s h hmem,
   fun cid s h hmem => keySetsMatch_clear cid s h hmem⟩

/-- Witness for C3: the preservation theorem applied to concrete calls on the
seed state. -/
theorem key_sets_match_preserved_witness :
    keySetsMatch (hydrate none seedState) = true ∧
    keySetsMatch (createConversation (some "c1") 0 seedState).2 = true ∧
    keySetsMatch (sendMessage (some "c1") "hi" "u1" "t1"
      (Except.error "boom") "t2" seedState) = true ∧
    keySetsMatch (clearConversation (some "c1") seedState) = true :=
  ⟨key_sets_match_preserved.1 none seedState (by decide)
      (by rintro convs byId ⟨p, hp, _⟩; cases hp),
   key_sets_match_preserved.2.1 (some "c1") 0 seedState (by decide),
   key_sets_match_preserved.2.2.1 (some "c1") "hi" "u1" "t1"
      (Except.error "boom") "t2" seedState (by decide)
      (by rintro i hi hne; cases hi; decide),
   key_sets_match_preserved.2.2.2 (some "c1") seedState (by decide)
      (by rintro i hi hne; cases hi; decide)⟩

/-- C3 (counterexample): the seed state satisfies the matching-key-sets
invariant, but clearConversation with the truthy id "zzz" — absent from the
metadata list — adds a map entry with no metadata counterpart and breaks it. -/
theorem clearConversation_breaks_key_match :
    keySetsMatch seedState = true ∧
    keySetsMatch (clearConversation (some "zzz") seedState) = false := by
  decide

/-- C4: createConversation returns the active conversation's id with the state
untouched when the active conversation's message sequence is empty; otherwise,
when the metadata list contains a conversation with an empty sequence, it
returns the first such conversation's id with the state untouched; otherwise it
appends a new conversation carrying the fresh id built from `Date.now()` and
the placeholder title, initialises its message sequence to empty, and returns
the new id — the state is mutated only in that last case. -/
theorem createConversation_branches (a : Option String) (now : Nat) (s : ChatState) :
    (∀ aid, a = some aid → aid ≠ "" →
      (lookupById s.conversationsById aid).getD [] = [] →
      createConversation a now s = (aid, s)) ∧
    (∀ conv, (∀ aid, a = some aid → aid ≠ "" →
        (lookupById s.conversationsById aid).getD [] ≠ []) →
      s.conversations.find? (fun c =>
        ((lookupById s.conversationsById c.id).getD []).length = 0) = some conv →
      createConversation a now s = (conv.id, s)) ∧
    ((∀ aid, a = some aid → aid ≠ "" →
        (lookupById s.conversationsById aid).getD [] ≠ []) →
      s.conversations.find? (fun c =>
        ((lookupById s.conversationsById c.id).getD []).length = 0) = none →
      createConversation a now s =
        ("c-" ++ toString now,
          { s with
            conversations := s.conversations ++
              [{ id := "c-" ++ toString now, title := "New conversation" }],
            conversationsById :=
              setKey s.conversationsById ("c-" ++ toString now) [] })) := by
  refine ⟨?_, ?_, ?_⟩
  · rintro aid rfl hne hempty
    rw [createConversation.eq_def]
    dsimp only
    rw [if_pos hne, hempty]
    rw [if_pos ⟨by simp [optTruthy, hne], rfl⟩]
    rfl
  · rintro conv hno hfind
    rw [createConversation.eq_def]
    have hcond : ¬ (optTruthy a = true ∧
        (match a with
         | some aid => if aid ≠ "" then (lookupById s.conversationsById aid).getD [] else []
         | none => []).length = 0) := by
      rintro ⟨h1, h2⟩
      cases a with
      | none => simp [optTruthy] at h1
      | some aid =>
        have hne : aid ≠ "" := by simpa [optTruthy] using h1
        dsimp only at h2
        rw [if_pos hne] at h2
        exact hno aid rfl hne (List.length_eq_zero.mp h2)
    cases a with
    | none =>
      dsimp only
      rw [if_neg (by simpa using hcond), hfind]
    | some aid =>
      dsimp only
      rw [if_neg (by simpa using hcond), hfind]
  · rintro hno hfind
    rw [createConversation.eq_def]
    have hcond : ¬ (optTruthy a = true ∧
        (match a with
         | some aid => if aid ≠ "" then (lookupById s.conversationsById aid).getD [] else []
         | none => []).length = 0) := by
      rintro ⟨h1, h2⟩
      cases a with
      | none => simp [optTruthy] at h1
      | some aid =>
        have hne : aid ≠ "" := by simpa [optTruthy] using h1
        dsimp only at h2
        rw [if_pos hne] at h2
        exact hno aid rfl hne (List.length_eq_zero.mp h2)
    cases a with
    | none =>
      dsimp only
      rw [if_neg (by simpa using hcond), hfind]
    | some aid =>
      dsimp only
      rw [if_neg (by simpa using hcond), hfind]



/-- Sample legacy message used to populate non-empty conversations. -/
def staleMessage : Message :=
  { id := "m1", role := "user", content := "x", timestamp := none }

/-- Seed state with a message in c1 (active busy, c2 still empty). -/
def busyActiveState : ChatState :=
  { seedState with conversationsById := [("c1", [staleMessage]), ("c2", [])] }

/-- Seed state with a message in both conversations (no empty one left). -/
def fullState : ChatState :=
  { seedState with
    conversationsById := [("c1", [staleMessage]), ("c2", [staleMessage])] }

/-- Witness for C4: all three branches exercised on concrete states. -/
theorem createConversation_branches_witness :
    createConversation (some "c1") 0 seedState = ("c1", seedState) ∧
    createConversation (some "c1") 0 busyActiveState = ("c2", busyActiveState) ∧
    (createConversation (some "c1") 7 fullState).1 = "c-7" :=
  ⟨(createConversation_branches (some "c1") 0 seedState).1 "c1" rfl
      (by decide) (by decide),
   (createConversation_branches (some "c1") 0 busyActiveState).2.1
      { id := "c2", title := "Second conversation" }
      (by rintro aid h hne; cases h; decide) (by decide),
   by
    rw [(createConversation_branches (some "c1") 7 fullState).2.2
      (by rintro aid h hne; cases h; decide) (by decide)]
    decide⟩

/-- An ordinal-derived title is never the placeholder: every table entry and
the numeric fallback differ from "New conversation". -/
theorem ordinalName_ne_placeholder (n : Nat) :
    ordinalName n ++ " conversation" ≠ "New conversation" := by
  intro h
  have h2 : (ordinalName n ++ " conversation").data =
      ("New" ++ " conversation").data := by
    rw [h]; rfl
  rw [String.data_append, String.data_append] at h2
  have hord : (ordinalName n).data = "New".data :=
    List.append_cancel_right h2
  rcases n with _|_|_|_|_|_|_|_|_|_|n
  · exact absurd hord (by decide)
  · exact absurd hord (by decide)
  · exact absurd hord (by decide)
  · exact absurd hord (by decide)
  · exact absurd hord (by decide)
  · exact absurd hord (by decide)
  · exact absurd hord (by decide)
  · exact absurd hord (by decide)
  · exact absurd hord (by decide)
  · exact absurd hord (by decide)
  · have hnone : ordinals.get? (n + 10) = none := by
      rw [List.get?_eq_none]
      simp [ordinals]
    rw [ordinalName, hnone, Option.getD_none, String.data_append] at hord
    rcases hdigits : (toString (n + 10 + 1)).data with _ | ⟨a, _ | ⟨b, _ | ⟨c, rest⟩⟩⟩ <;>
      rw [hdigits] at hord <;> simp_all



/-- The metadata list after sendMessage is either unchanged, or — exactly when
the active conversation is found with the placeholder title and an empty prior
sequence — the retitling map that rewrites that conversation's title to the
ordinal name computed from the count of other in-use conversations. -/
theorem sendMessage_conversations_shape (a : Option String) (txt uid uts : String)
    (r : Except String Message) (ats : String) (s : ChatState) :
    (sendMessage a txt uid uts r ats s).conversations = s.conversations ∨
    ∃ aid cc, a = some aid ∧
      s.conversations.find? (fun c => c.id = aid) = some cc ∧
      cc.title = "New conversation" ∧
      (sendMessage a txt uid uts r ats s).conversations =
        s.conversations.map (fun conv =>
          if conv.id = aid then
            { conv with title :=
                ordinalName ((s.conversations.filter (fun conv =>
                  conv.id ≠ aid ∧
                  (((lookupById s.conversationsById conv.id).getD []).length > 0 ∨
                    conv.title ≠ "New conversation"))).length) ++ " conversation" }
          else conv) := by
  cases a with
  | none => left; rw [sendMessage, if_pos (by simp [optTruthy])]
  | some aid =>
    by_cases hi : aid = ""
    · subst hi
      left; rw [sendMessage, if_pos (by simp [optTruthy])]
    · by_cases htxt : jsTrim txt = ""
      · left; rw [sendMessage, if_pos (Or.inl htxt)]
      · by_cases hfirst :
            ((lookupById s.conversationsById aid).getD []).length = 0
        · cases hf : s.conversations.find? (fun c => decide (c.id = aid)) with
          | none =>
            left
            rw [sendMessage, if_neg (by simp [optTruthy, hi, htxt])]
            dsimp only
            simp only [Option.getD_some, hfirst, eq_self_iff_true, if_true, hf]
            cases r <;> rfl
          | some cc =>
            by_cases htitle : cc.title = "New conversation"
            · right
              refine ⟨aid, cc, rfl, hf, htitle, ?_⟩
              rw [sendMessage, if_neg (by simp [optTruthy, hi, htxt])]
              dsimp only
              simp only [Option.getD_some, hfirst, eq_self_iff_true, if_true, hf]
              rw [if_neg (by simpa using htitle)]
              cases r <;> rfl
            · left
              rw [sendMessage, if_neg (by simp [optTruthy, hi, htxt])]
              dsimp only
              simp only [Option.getD_some, hfirst, eq_self_iff_true, if_true, hf]
              rw [if_pos (by simpa using htitle)]
              cases r <;> rfl
        · left
          rw [sendMessage, if_neg (by simp [optTruthy, hi, htxt])]
          dsimp only
          simp only [Option.getD_some]
          rw [if_neg hfirst]
          cases r <;> rfl



/-- The metadata list after createConversation is unchanged or extended by the
single new placeholder-titled conversation. -/
theorem createConversation_conversations_shape (a : Option String) (now : Nat)
    (s : ChatState) :
    (createConversation a now s).2.conversations = s.conversations ∨
    (createConversation a now s).2.conversations =
      s.conversations ++
        [{ id := "c-" ++ toString now, title := "New conversation" }] := by
  rw [createConversation.eq_def]
  cases hf : s.conversations.find? (fun c =>
      decide (((lookupById s.conversationsById c.id).getD []).length = 0)) with
  | some c =>
    cases a with
    | none =>
      simp only [hf]
      split <;> simp
    | some aid =>
      simp only [hf]
      split
      · split <;> simp
      · split <;> simp
  | none =>
    cases a with
    | none =>
      simp only [hf]
      split <;> simp
    | some aid =>
      simp only [hf]
      split
      · split <;> simp
      · split <;> simp

/-- C5 (amended): every conversation allocated by createConversation starts
with the placeholder title (the two pre-seeded conversations start with
ordinal titles instead); createConversation and clearConversation never touch
an existing conversation record; sendMessage (on a state with distinct
conversation ids) preserves every conversation whose title is no longer the
placeholder, and any title it writes is an ordinal name, which is never the
placeholder — so a title is rewritten at most once, from placeholder to
ordinal. -/
theorem title_rewritten_at_most_once :
    (∀ a now s c, c ∈ (createConversation a now s).2.conversations →
      c ∈ s.conversations ∨ c.title = "New conversation") ∧
    (∀ a now s c, c ∈ s.conversations →
      c ∈ (createConversation a now s).2.conversations) ∧
    (∀ cid s, (clearConversation cid s).conversations = s.conversations) ∧
    (∀ a txt uid uts r ats s c,
      (s.conversations.map Conversation.id).Nodup →
      c ∈ s.conversations → c.title ≠ "New conversation" →
      c ∈ (sendMessage a txt uid uts r ats s).conversations) ∧
    (∀ a txt uid uts r ats s c,
      c ∈ (sendMessage a txt uid uts r ats s).conversations →
      c ∈ s.conversations ∨ ∃ k, c.title = ordinalName k ++ " conversation") ∧
    (∀ k, ordinalName k ++ " conversation" ≠ "New conversation") := by
  refine ⟨?_, ?_, ?_, ?_, ?_, ordinalName_ne_placeholder⟩
  · intro a now s c hc
    rcases createConversation_conversations_shape a now s with h | h
    · rw [h] at hc; exact Or.inl hc
    · rw [h] at hc
      rcases List.mem_append.mp hc with h1 | h1
      · exact Or.inl h1
      · right
        have : c = { id := "c-" ++ toString now, title := "New conversation" } := by
          simpa using h1
        rw [this]
  · intro a now s c hc
    rcases createConversation_conversations_shape a now s with h | h
    · rw [h]; exact hc
    · rw [h]; exact List.mem_append_left _ hc
  · intro cid s
    rw [clearConversation]
    split <;> rfl
  · intro a txt uid uts r ats s c hnodup hc htitle
    rcases sendMessage_conversations_shape a txt uid uts r ats s with
      h | ⟨aid, cc, ha, hf, hcc, h⟩
    · rw [h]; exact hc
    · rw [h]
      have hccmem : cc ∈ s.conversations := List.mem_of_find?_eq_some hf
      have hccid : cc.id = aid := by simpa using List.find?_some hf
      have hcid : c.id ≠ aid := by
        intro heq
        have : c = cc :=
          List.inj_on_of_nodup_map hnodup hc hccmem (by rw [heq, hccid])
        rw [this, hcc] at htitle
        exact htitle rfl
      exact List.mem_map.mpr ⟨c, hc, by simp [hcid]⟩
  · intro a txt uid uts r ats s c hc
    rcases sendMessage_conversations_shape a txt uid uts r ats s with
      h | ⟨aid, cc, ha, hf, hcc, h⟩
    · rw [h] at hc; exact Or.inl hc
    · rw [h] at hc
      obtain ⟨q, hq, hfq⟩ := List.mem_map.mp hc
      by_cases hqid : q.id = aid
      · right
        rw [← hfq, if_pos hqid]
        exact ⟨_, rfl⟩
      · left
        rw [← hfq]
        simpa [hqid] using hq

/-- Witness for C5: the ordinal-titled seed conversation c1 survives a
sendMessage and a createConversation on the seed state. -/
theorem title_rewritten_at_most_once_witness :
    ({ id := "c1", title := "First conversation" } : Conversation) ∈
      (sendMessage (some "c1") "hi" "u1" "t1" (Except.error "boom2") "t2"
        seedState).conversations ∧
    (({ id := "c1", title := "First conversation" } : Conversation) ∈
        seedState.conversations ∨
      ({ id := "c1", title := "First conversation" } : Conversation).title =
        "New conversation") :=
  ⟨title_rewritten_at_most_once.2.2.2.1 (some "c1") "hi" "u1" "t1"
      (Except.error "boom2") "t2" seedState _ (by decide) (by decide) (by decide),
   title_rewritten_at_most_once.1 (some "c1") 0 seedState _ (by decide)⟩

/-- C5 (counterexample): the pre-seeded conversations of the initial state
carry ordinal titles from the moment they exist — their titles never were the
sentinel placeholder, refuting "every conversation's title starts as the
placeholder". -/
theorem seed_title_not_placeholder :
    ¬ (∀ c ∈ seedState.conversations, c.title = "New conversation") := by
  decide

/-- C6: when sendMessage appends the first message of a conversation whose
title is still the placeholder, the conversation's title becomes
"{ordinal} conversation" where the ordinal is the count of other conversations
that are in use (non-empty message sequence or non-placeholder title) mapped
through the fixed table First..Tenth with the numeric "{N}th" fallback beyond
it; no other conversation's record changes. -/
theorem sendMessage_ordinal_title (aid : String) (ha : aid ≠ "") (txt : String)
    (htxt : jsTrim txt ≠ "") (uid uts : String) (r : Except String Message)
    (ats : String) (s : ChatState) (cc : Conversation)
    (hfirst : (lookupById s.conversationsById aid).getD [] = [])
    (hf : s.conversations.find? (fun c => c.id = aid) = some cc)
    (hcc : cc.title = "New conversation") :
    (sendMessage (some aid) txt uid uts r ats s).conversations =
      s.conversations.map (fun conv =>
        if conv.id = aid then
          { conv with title :=
              ordinalName ((s.conversations.filter (fun conv =>
                conv.id ≠ aid ∧
                (((lookupById s.conversationsById conv.id).getD []).length > 0 ∨
                  conv.title ≠ "New conversation"))).length) ++ " conversation" }
        else conv) := by
  have hlen : ((lookupById s.conversationsById aid).getD []).length = 0 := by
    rw [hfirst]; rfl
  rw [sendMessage, if_neg (by simp [optTruthy, ha, htxt])]
  dsimp only
  simp only [Option.getD_some, hlen, eq_self_iff_true, if_true, hf]
  rw [if_neg (by simpa using hcc)]
  cases r <;> rfl

/-- Two untouched placeholder conversations, as in spec scenario 2. -/
def freshPairState : ChatState :=
  { conversations :=
      [{ id := "a", title := "New conversation" },
       { id := "b", title := "New conversation" }],
    conversationsById := [("a", []), ("b", [])],
    isLoading := false,
    error := none,
    isHydrated := true }

/-- Witness for C6: first message in conversation a while b is empty and
untitled yields the title "First conversation". -/
theorem sendMessage_ordinal_title_witness :
    (sendMessage (some "a") "hello" "u1" "t1" (Except.error "x") "t2"
      freshPairState).conversations =
      [{ id := "a", title := "First conversation" },
       { id := "b", title := "New conversation" }] := by
  rw [sendMessage_ordinal_title "a" (by decide) "hello" (by decide) "u1" "t1"
    (Except.error "x") "t2" freshPairState
    { id := "a", title := "New conversation" } (by decide) (by decide) rfl]
  decide

/-- C7: hydrate is a total function (never throws — exceptions from getItem,
JSON.parse or the field accesses are absorbed by the try/catch, modelled by the
inner option) and sets the hydrated flag in every branch; it leaves the state
untouched when nothing is stored, when the stored value is unparsable, when the
parsed version differs from the expected version, or when either collection
field is missing, and installs both stored collections verbatim exactly when
the version matches and both fields are present. -/
theorem hydrate_branches :
    (∀ s, hydrate none s = { s with isHydrated := true }) ∧
    (∀ s, hydrate (some none) s = { s with isHydrated := true }) ∧
    (∀ s p, p.version ≠ STORAGE_VERSION →
      hydrate (some (some p)) s = { s with isHydrated := true }) ∧
    (∀ s p, p.version = STORAGE_VERSION →
      (p.conversations = none ∨ p.conversationsById = none) →
      hydrate (some (some p)) s = { s with isHydrated := true }) ∧
    (∀ s convs byId,
      hydrate (some (some { version := STORAGE_VERSION,
                            conversations := some convs,
                            conversationsById := some byId })) s =
        { s with conversations := convs, conversationsById := byId,
                 isHydrated := true }) := by
  refine ⟨fun s => rfl, fun s => rfl, ?_, ?_, ?_⟩
  · intro s p hv
    rw [hydrate.eq_def]
    dsimp only
    rw [if_neg hv]
  · rintro s ⟨v, pc, pb⟩ hv hor
    dsimp only at hv
    subst hv
    cases pc with
    | none =>
      cases pb with
      | none => rw [hydrate.eq_def]; dsimp only; rw [if_pos rfl]
      | some byId => rw [hydrate.eq_def]; dsimp only; rw [if_pos rfl]
    | some convs =>
      cases pb with
      | none => rw [hydrate.eq_def]; dsimp only; rw [if_pos rfl]
      | some byId =>
        rcases hor with h | h <;> simp at h
  · intro s convs byId
    rw [hydrate.eq_def]
    dsimp only
    rw [if_pos rfl]

/-- Witness for C7: all five hydrate branches exercised on the seed state. -/
theorem hydrate_branches_witness :
    hydrate none seedState = { seedState with isHydrated := true } ∧
    hydrate (some none) seedState = { seedState with isHydrated := true } ∧
    hydrate (some (some { version := 2, conversations := some [],
                          conversationsById := some [] })) seedState =
      { seedState with isHydrated := true } ∧
    hydrate (some (some { version := 1, conversations := none,
                          conversationsById := some [] })) seedState =
      { seedState with isHydrated := true } ∧
    hydrate (some (some { version := 1, conversations := some [],
                          conversationsById := some [] })) seedState =
      { seedState with conversations := [], conversationsById := [],
                       isHydrated := true } :=
  ⟨hydrate_branches.1 seedState,
   hydrate_branches.2.1 seedState,
   hydrate_branches.2.2.1 seedState _ (by decide),
   hydrate_branches.2.2.2.1 seedState _ (by decide) (Or.inl rfl),
   hydrate_branches.2.2.2.2 seedState [] []⟩

/-- C8: when the reply service call inside sendMessage rejects, the error
state holds the rejection, isLoading is false, and the active conversation's
message sequence is exactly the prior sequence with the user message appended
— no assistant message; isLoading is also false after a successful exchange. -/
theorem sendMessage_rejection (aid : String) (ha : aid ≠ "") (txt : String)
    (htxt : jsTrim txt ≠ "") (uid uts : String) (e : String) (ats : String)
    (am : Message) (s : ChatState) :
    (sendMessage (some aid) txt uid uts (Except.error e) ats s).error = some e ∧
    (sendMessage (some aid) txt uid uts (Except.error e) ats s).isLoading =
      false ∧
    lookupById (sendMessage (some aid) txt uid uts (Except.error e) ats
        s).conversationsById aid =
      some ((lookupById s.conversationsById aid).getD [] ++
        [{ id := uid, role := "user", content := jsTrim txt,
           timestamp := some uts }]) ∧
    (sendMessage (some aid) txt uid uts (Except.ok am) ats s).isLoading =
      false := by
  have hguard : ¬ (jsTrim txt = "" ∨ ¬ optTruthy (some aid) = true) := by
    simp [optTruthy, ha, htxt]
  refine ⟨?_, ?_, ?_, ?_⟩
  · rw [sendMessage, if_neg hguard]
  · rw [sendMessage, if_neg hguard]
  · rw [sendMessage, if_neg hguard]
    dsimp only
    rw [apply_ite ChatState.conversationsById]
    simp only [ite_self]
    rw [show ((some aid).getD "") = aid from rfl, lookupById_setKey]
    simp
  · rw [sendMessage, if_neg hguard]

/-- Witness for C8: a rejected exchange on the seed state. -/
theorem sendMessage_rejection_witness :
    (sendMessage (some "c1") "hi" "u1" "t1" (Except.error "fail") "t2"
      seedState).error = some "fail" ∧
    (sendMessage (some "c1") "hi" "u1" "t1" (Except.error "fail") "t2"
      seedState).isLoading = false ∧
    lookupById (sendMessage (some "c1") "hi" "u1" "t1" (Except.error "fail")
        "t2" seedState).conversationsById "c1" =
      some [{ id := "u1", role := "user", content := "hi",
              timestamp := some "t1" }] := by
  obtain ⟨h1, h2, h3, h4⟩ := sendMessage_rejection "c1" (by decide) "hi"
    (by decide) "u1" "t1" "fail" "t2"
    { id := "x", role := "assistant", content := "y", timestamp := none }
    seedState
  exact ⟨h1, h2, by rw [h3]; decide⟩



/-- C9: serialising the {version, conversations, conversationsById} snapshot as
the persist effect does and hydrating from that stored value (same version)
reproduces the persisted conversation list and message map verbatim. -/
theorem persist_hydrate_roundtrip (w : PersistPayload → Except String Unit)
    (s s' : ChatState) (hs : s.isHydrated = true) :
    ∃ payload, (persistStep w s).2 = some payload ∧
      hydrate (some (some (parseOfPersist payload))) s' =
        { s' with conversations := s.conversations,
                  conversationsById := s.conversationsById,
                  isHydrated := true } := by
  refine ⟨{ version := STORAGE_VERSION,
            conversations := s.conversations,
            conversationsById := s.conversationsById }, ?_, ?_⟩
  · rw [persistStep, if_pos hs]
    dsimp only
    cases hw : w { version := STORAGE_VERSION,
                   conversations := s.conversations,
                   conversationsById := s.conversationsById } <;>
      simp only [hw]
  · rw [hydrate.eq_def]
    dsimp only [parseOfPersist]
    rw [if_pos rfl]

/-- Witness for C9: round trip through the persisted seed snapshot. -/
theorem persist_hydrate_roundtrip_witness :
    ∃ payload,
      (persistStep (fun _ => Except.ok ())
        { seedState with isHydrated := true }).2 = some payload ∧
      hydrate (some (some (parseOfPersist payload))) seedState =
        { seedState with conversations := seedState.conversations,
                         conversationsById := seedState.conversationsById,
                         isHydrated := true } :=
  persist_hydrate_roundtrip (fun _ => Except.ok ())
    { seedState with isHydrated := true } seedState rfl

/-- C10: the persist effect writes nothing while the hydrated flag is false;
once hydrated, each run writes exactly the {version, conversations,
conversationsById} snapshot; and whether the store write succeeds or throws
(the failure is caught), the in-memory state is returned unchanged. -/
theorem persist_gating (w : PersistPayload → Except String Unit)
    (s : ChatState) :
    persistStep w s =
      (s, if s.isHydrated then
        some { version := STORAGE_VERSION,
               conversations := s.conversations,
               conversationsById := s.conversationsById }
      else none) := by
  rw [persistStep]
  by_cases h : s.isHydrated = true
  · rw [if_pos h]
    simp only [h, if_true]
    cases hw : w { version := STORAGE_VERSION,
                   conversations := s.conversations,
                   conversationsById := s.conversationsById } <;>
      simp only [hw]
  · rw [if_neg h]
    simp only [Bool.not_eq_true] at h
    simp [h]

end ChatApp
